import Mathlib

/-!
Verification of the blood-donation server core (`server/server.js` and its
mongoose models `Stats` and `Donor`).

The state of the backing store is a pair of collections: an append-only list
of donor documents and a list of stats documents (the stats collection is
intended to hold a single document keyed by `identifier = "global"`, enforced
by a unique index which we model explicitly).  Request handlers are translated
as pure functions from a store state (plus the request data and a clock value
standing for `Date.now()`) to a new store state and an HTTP response whose
JSON body is modelled syntactically, so that claims about field names in the
responses can be settled.

JavaScript particulars that matter to the claims are modelled faithfully:
submitted values are kept in string form (`parseInt` stringifies its argument,
so the number `18.5` reaches it as `"18.5"`); `parseInt` skips the ECMAScript
whitespace set, reads an optional sign, auto-detects a hexadecimal `0x`
prefix, and reads the longest leading digit run, discarding the rest;
`String.prototype.trim` removes that same whitespace set from both ends;
`minlength` compares the UTF-16 string length; and `!x`-style presence checks
treat the empty string as missing.
-/

namespace BloodDonation

/-- Syntactic model of the JSON values appearing in response bodies. -/
inductive JVal where
  | str (s : String)
  | int (n : Int)
  | bool (b : Bool)
  | obj (fields : List (String × JVal))
  | arr (items : List JVal)

/-- Field lookup on a JSON object (none on other values or missing keys). -/
def JVal.lookup (j : JVal) (k : String) : Option JVal :=
  match j with
  | .obj fields => (fields.find? (fun p => p.1 == k)).map (fun p => p.2)
  | _ => none

/-- The list of keys of a JSON object. -/
def JVal.keys (j : JVal) : List String :=
  match j with
  | .obj fields => fields.map (fun p => p.1)
  | _ => []

/-- A donor document (mongoose model `Donor`). -/
structure Donor where
  fullName : String
  bloodGroup : String
  age : Int
  year : String
  donatedAt : Nat
  deriving DecidableEq, Repr

/-- A stats document (mongoose model `Stats`). -/
structure StatsDoc where
  identifier : String
  totalBloodUnits : Int
  lastUpdated : Nat
  deriving DecidableEq, Repr

/-- The backing store: the donors collection (in insertion order) and the
stats collection. -/
structure DB where
  donors : List Donor
  stats : List StatsDoc
  deriving DecidableEq, Repr

/-- The query `findOne({identifier: 'global'})` on the stats collection. -/
def findGlobal (db : DB) : Option StatsDoc :=
  db.stats.find? (fun s => s.identifier == "global")

/-- Number of documents in the stats collection matching the singleton key. -/
def globalCount (db : DB) : Nat :=
  db.stats.countP (fun s => s.identifier == "global")

/-- The current total as observed through the singleton document (0 when the
document does not exist yet). -/
def totalUnits (db : DB) : Int :=
  ((findGlobal db).map (fun s => s.totalBloodUnits)).getD 0

/-- Replace the first stats document matching the singleton key
(the document `findOneAndUpdate` would have updated). -/
def setGlobal : List StatsDoc → StatsDoc → List StatsDoc
  | [], _ => []
  | s :: rest, s2 =>
      if s.identifier == "global" then s2 :: rest else s :: setGlobal rest s2

/-- `Stats.incrementCount(amount)`: atomic
`findOneAndUpdate({identifier:'global'}, {$inc:{totalBloodUnits:amount},
$set:{lastUpdated:now}}, {new:true, upsert:true, setDefaultsOnInsert:true})`.
On upsert the inserted document carries the query key, `$inc` applied to the
default 0, and the `$set` timestamp.  Returns the post-update document. -/
def incrementCount (db : DB) (amount : Int) (now : Nat) : DB × StatsDoc :=
  match findGlobal db with
  | some s =>
      let s2 : StatsDoc :=
        { s with totalBloodUnits := s.totalBloodUnits + amount, lastUpdated := now }
      ({ db with stats := setGlobal db.stats s2 }, s2)
  | none =>
      let s2 : StatsDoc := { identifier := "global", totalBloodUnits := amount, lastUpdated := now }
      ({ db with stats := db.stats ++ [s2] }, s2)

/-- `Stats.getStats()` run without interference: `findOne`, and when absent,
`create({identifier:'global', totalBloodUnits: 0})`. -/
def getStats (db : DB) (now : Nat) : DB × StatsDoc :=
  match findGlobal db with
  | some s => (db, s)
  | none =>
      let s : StatsDoc := { identifier := "global", totalBloodUnits := 0, lastUpdated := now }
      ({ db with stats := db.stats ++ [s] }, s)

/-- The ECMAScript WhiteSpace and LineTerminator set, removed by
`String.prototype.trim` and skipped by `parseInt`: TAB, LF, VT, FF, CR,
space, NBSP (U+00A0), U+1680, U+2000..U+200A, U+2028, U+2029, U+202F,
U+205F, U+3000 and the byte-order mark U+FEFF. -/
def jsWhitespace (c : Char) : Bool :=
  c.toNat == 0x9 || c.toNat == 0xA || c.toNat == 0xB || c.toNat == 0xC
  || c.toNat == 0xD || c.toNat == 0x20 || c.toNat == 0xA0 || c.toNat == 0x1680
  || (0x2000 ≤ c.toNat && c.toNat ≤ 0x200A)
  || c.toNat == 0x2028 || c.toNat == 0x2029 || c.toNat == 0x202F
  || c.toNat == 0x205F || c.toNat == 0x3000 || c.toNat == 0xFEFF

/-- JavaScript `String.prototype.trim`: drop whitespace from the left end. -/
def trimL (l : List Char) : List Char :=
  l.dropWhile jsWhitespace

/-- JavaScript `String.prototype.trim`: drop whitespace from the right end. -/
def trimR (l : List Char) : List Char :=
  (l.reverse.dropWhile jsWhitespace).reverse

/-- JavaScript `String.prototype.trim`: whitespace removed from both ends. -/
def jsTrim (s : String) : String :=
  ⟨trimR (trimL s.data)⟩

/-- JavaScript `String.prototype.length`: UTF-16 code units, so a codepoint
beyond the basic multilingual plane (a surrogate pair in JS) counts twice. -/
def utf16Len (s : String) : Nat :=
  s.data.foldl (fun n c => n + (if c.toNat < 0x10000 then 1 else 2)) 0

/-- Value of a hexadecimal digit (also yields the value of a decimal digit). -/
def hexVal (c : Char) : Nat :=
  if c.isDigit then c.toNat - '0'.toNat
  else if 'a' ≤ c && c ≤ 'f' then c.toNat - 'a'.toNat + 10
  else c.toNat - 'A'.toNat + 10

/-- Hexadecimal digit test. -/
def isHexDigit (c : Char) : Bool :=
  c.isDigit || ('a' ≤ c && c ≤ 'f') || ('A' ≤ c && c ≤ 'F')

/-- Numeric value of a digit string in the given base. -/
def digitsVal (base : Nat) (ds : List Char) : Nat :=
  ds.foldl (fun acc c => acc * base + hexVal c) 0

/-- The unsigned part of `parseInt` after whitespace and sign processing: a
`0x`/`0X` prefix selects radix 16, otherwise radix 10 is used; the longest
prefix of digits of that radix is read, and an empty one is `NaN` (`none`). -/
def jsParseIntCore (l : List Char) : Option Int :=
  match l with
  | '0' :: 'x' :: rest =>
      let ds := rest.takeWhile isHexDigit
      if ds.isEmpty then none else some (digitsVal 16 ds)
  | '0' :: 'X' :: rest =>
      let ds := rest.takeWhile isHexDigit
      if ds.isEmpty then none else some (digitsVal 16 ds)
  | _ =>
      let ds := l.takeWhile Char.isDigit
      if ds.isEmpty then none else some (digitsVal 10 ds)

/-- JavaScript `parseInt` with no radix argument (`parseInt` stringifies its
argument, so a JSON number such as `18.5` reaches it as the string `"18.5"`):
leading ECMAScript whitespace is skipped, an optional sign is read, a
hexadecimal `0x`/`0X` prefix is auto-detected, then the longest prefix of
digits of the selected radix is read; everything after it (such as a
fractional part) is discarded.  `none` is `NaN`. -/
def jsParseInt (s : String) : Option Int :=
  let l := s.data.dropWhile jsWhitespace
  match l with
  | '-' :: rest => (jsParseIntCore rest).map (fun n => -n)
  | '+' :: rest => jsParseIntCore rest
  | _ => jsParseIntCore l

/-- The closed set of blood groups (`validBloodGroups` in the handler, and the
`enum` of `donorSchema.bloodGroup`). -/
def validBloodGroups : List String :=
  ["A+", "A-", "B+", "B-", "AB+", "AB-", "O+", "O-"]

/-- The closed set of academic years (`validYears` in the handler, and the
`enum` of `donorSchema.year`). -/
def validYears : List String :=
  ["FY", "SY", "TY", "Final Year"]

/-- Messages of the mongoose validators of `donorSchema` that fail on a
candidate document (in schema field order).  Validators run on the value
after the `trim: true` setter, so `fullName` is inspected as stored, and
`minlength` compares the JavaScript (UTF-16) string length. -/
def donorValidationErrors (d : Donor) : List String :=
  (if d.fullName == "" then ["Full name is required"]
   else if utf16Len d.fullName < 2 then ["Name must be at least 2 characters long"]
   else [])
  ++ (if validBloodGroups.contains d.bloodGroup then [] else ["Invalid blood group"])
  ++ (if d.age < 18 then ["Donor must be at least 18 years old"] else [])
  ++ (if 65 < d.age then ["Donor must be 65 years or younger"] else [])
  ++ (if validYears.contains d.year then [] else ["Invalid year selection"])

/-- `donor.save()`: the schema setter `trim: true` is applied to `fullName`,
then the validators run; on success the document is appended to the donors
collection. -/
def saveDonor (db : DB) (d : Donor) : Except (List String) DB :=
  let d2 : Donor := { d with fullName := jsTrim d.fullName }
  match donorValidationErrors d2 with
  | [] => Except.ok { db with donors := db.donors ++ [d2] }
  | errs => Except.error errs

/-- An HTTP response: status code and JSON body. -/
structure HResp where
  status : Nat
  body : JVal

/-- A `{success:false, message}` body. -/
def errorBody (msg : String) : JVal :=
  .obj [("success", .bool false), ("message", .str msg)]

/-- The request body of `POST /api/donate`.  A `none` field is an absent
field; every submitted value is kept in its string form (the form submits
strings, and `parseInt` stringifies numbers anyway). -/
structure DonateBody where
  fullName : Option String
  bloodGroup : Option String
  age : Option String
  year : Option String
  deriving DecidableEq

/-- JavaScript truthiness of a possibly-absent string (`!x` fails for absent
and for the empty string). -/
def truthyStr : Option String → Bool
  | some s => s != ""
  | none => false

/-- The `POST /api/donate` handler.  The two Booleans inject storage failures:
`saveStorageFails` makes `donor.save()` throw a non-validation error,
`incrementFails` makes `Stats.incrementCount` throw.  Validation errors from
`save` are answered 400, any other thrown error 500. -/
def donateHandler (db : DB) (b : DonateBody)
    (saveStorageFails incrementFails : Bool) (now : Nat) : DB × HResp :=
  if !(truthyStr b.fullName && truthyStr b.bloodGroup && truthyStr b.age && truthyStr b.year) then
    (db, ⟨400, errorBody "All fields are required"⟩)
  else
    let fullName := b.fullName.getD ""
    let bloodGroup := b.bloodGroup.getD ""
    let year := b.year.getD ""
    -- `isNaN(ageNum) || ageNum < 18`: when `parseInt` gives `NaN` the code
    -- rejects here, exactly as the `< 18` test on the defaulted 0 does.
    let ageNum : Int := (jsParseInt (b.age.getD "")).getD 0
    if ageNum < 18 then
      (db, ⟨400, errorBody "Donor must be at least 18 years old"⟩)
    else if !(validBloodGroups.contains bloodGroup) then
      (db, ⟨400, errorBody "Invalid blood group"⟩)
    else if !(validYears.contains year) then
      (db, ⟨400, errorBody "Invalid year selection"⟩)
    else
      let donor : Donor :=
        { fullName := jsTrim fullName, bloodGroup := bloodGroup,
          age := ageNum, year := year, donatedAt := now }
      match saveDonor db donor with
      | Except.error msgs =>
          (db, ⟨400, errorBody (String.intercalate ", " msgs)⟩)
      | Except.ok db1 =>
          if saveStorageFails then
            (db, ⟨500, errorBody "Server error. Please try again later."⟩)
          else if incrementFails then
            (db1, ⟨500, errorBody "Server error. Please try again later."⟩)
          else
            let r := incrementCount db1 1 now
            (r.1, ⟨201, .obj [("success", .bool true),
                  ("message", .str "Donation registered successfully"),
                  ("data", .obj [("donor", .obj [("fullName", .str donor.fullName),
                                                 ("bloodGroup", .str donor.bloodGroup)]),
                                 ("totalUnits", .int r.2.totalBloodUnits)])]⟩)

/-- The `GET /api/stats` handler: passthrough of `Stats.getStats()`. -/
def statsHandler (db : DB) (now : Nat) : DB × HResp :=
  let r := getStats db now
  (r.1, ⟨200, .obj [("success", .bool true),
        ("data", .obj [("totalBloodUnits", .int r.2.totalBloodUnits),
                       ("lastUpdated", .int r.2.lastUpdated)])]⟩)

/-- The `POST /api/sync-stats` handler: `countDocuments()` on donors, then
`findOneAndUpdate({identifier:'global'},
{totalBloodUnits: donorCount, lastUpdated: now}, {upsert:true})`
(a `$set`-style update in mongoose). -/
def syncStatsHandler (db : DB) (now : Nat) : DB × HResp :=
  let donorCount : Int := db.donors.length
  let db2 : DB :=
    match findGlobal db with
    | some s =>
        let s2 : StatsDoc := { s with totalBloodUnits := donorCount, lastUpdated := now }
        { db with stats := setGlobal db.stats s2 }
    | none =>
        let s2 : StatsDoc := { identifier := "global", totalBloodUnits := donorCount, lastUpdated := now }
        { db with stats := db.stats ++ [s2] }
  (db2, ⟨200, .obj [("success", .bool true),
        ("message", .str ("Stats synced. Total donors: " ++ toString donorCount)),
        ("data", .obj [("totalBloodUnits", .int donorCount)])]⟩)

/-- The public projection `select('fullName bloodGroup donatedAt')` of a donor
document as it is serialised in the `GET /api/donors` response. -/
def donorPublicJson (d : Donor) : JVal :=
  .obj [("fullName", .str d.fullName), ("bloodGroup", .str d.bloodGroup),
        ("donatedAt", .int d.donatedAt)]

/-- The comparison realising `sort({donatedAt: -1})`: descending timestamps. -/
def donatedDesc (a b : Donor) : Bool :=
  b.donatedAt ≤ a.donatedAt

/-- The effective limit computed by `parseInt(req.query.limit) || 10`: the
parameter is `none` when absent or not a number (`parseInt` gave `NaN`), and
a parsed value of 0 also falls back to 10 by falsiness. -/
def effectiveLimit : Option Int → Nat
  | none => 10
  | some n => if n = 0 then 10 else n.natAbs

/-- The `GET /api/donors` handler: stable sort by `donatedAt` descending,
truncated by the limit, each document projected to its public fields. -/
def donorsHandler (db : DB) (limitParam : Option Int) : HResp :=
  let selected := (db.donors.mergeSort donatedDesc).take (effectiveLimit limitParam)
  ⟨200, .obj [("success", .bool true),
              ("data", .arr (selected.map donorPublicJson))]⟩

/-- One atomic storage write of a registration: the donor insert performed by
`donor.save()`, or the single atomic read-modify-write of
`Stats.incrementCount(1)`.  A set of concurrent registrations reaching the
store is an arbitrary interleaving of such atomic writes. -/
inductive RegAct where
  | save (d : Donor)
  | inc (now : Nat)
  deriving DecidableEq, Repr

/-- Whether an atomic registration write is the counter increment. -/
def RegAct.isInc : RegAct → Bool
  | .save _ => false
  | .inc _ => true

/-- Apply one atomic registration write to the store. -/
def applyAct (db : DB) : RegAct → DB
  | .save d => { db with donors := db.donors ++ [d] }
  | .inc now => (incrementCount db 1 now).1

/-- Run an interleaving of atomic registration writes. -/
def runActs (db : DB) : List RegAct → DB
  | [] => db
  | a :: rest => runActs (applyAct db a) rest

/-- Program counter of one in-flight `Stats.getStats()` call: it has not read
yet, has read and seen no document, or has finished (found the document,
created it, or had its `create` refused by the unique index). -/
inductive GetPC where
  | start
  | sawNone
  | foundDoc
  | created
  | failedDup
  deriving DecidableEq, Repr

/-- Whether a `getStats` call has finished (its `findOne`-miss `create`
attempt resolved, or its `findOne` hit). -/
def GetPC.finished : GetPC → Bool
  | .start => false
  | .sawNone => false
  | .foundDoc => true
  | .created => true
  | .failedDup => true

/-- `Stats.create(doc)` under the unique index on `identifier`
(`statsSchema.index({identifier: 1}, {unique: true})`): the insert is refused
when a document with the same identifier already exists. -/
def createStats (db : DB) (doc : StatsDoc) : Option DB :=
  if db.stats.any (fun s => s.identifier == doc.identifier) then none
  else some { db with stats := db.stats ++ [doc] }

/-- One atomic step of a `getStats` call (`findOne`, then `create` if it saw
nothing); finished calls take no further step. -/
def getStatsStep (db : DB) (pc : GetPC) (now : Nat) : DB × GetPC :=
  match pc with
  | .start =>
      match findGlobal db with
      | some _ => (db, .foundDoc)
      | none => (db, .sawNone)
  | .sawNone =>
      match createStats db { identifier := "global", totalBloodUnits := 0, lastUpdated := now } with
      | some db2 => (db2, .created)
      | none => (db, .failedDup)
  | pc => (db, pc)

/-- Run a schedule over concurrent `getStats` callers: each schedule entry
names the caller to step next and the clock value at that step. -/
def runGetStats (db : DB) (cs : List GetPC) : List (Nat × Nat) → DB × List GetPC
  | [] => (db, cs)
  | (i, now) :: rest =>
      match cs[i]? with
      | none => runGetStats db cs rest
      | some pc =>
          let r := getStatsStep db pc now
          runGetStats r.1 (cs.set i r.2) rest

/-- Configuration invariant of concurrent `getStats` callers: at most one
singleton document exists, any finished caller guarantees at least one
exists, and every singleton document was initialised with a zero counter. -/
def getInv (db : DB) (cs : List GetPC) : Prop :=
  globalCount db ≤ 1
  ∧ (∀ pc ∈ cs, pc.finished = true → 1 ≤ globalCount db)
  ∧ (∀ s ∈ db.stats, s.identifier = "global" → s.totalBloodUnits = 0)

/-! ## Basic facts about the stats collection operations -/

theorem find?_setGlobal (l : List StatsDoc) (s s2 : StatsDoc)
    (h : l.find? (fun t => t.identifier == "global") = some s)
    (h2 : s2.identifier = "global") :
    (setGlobal l s2).find? (fun t => t.identifier == "global") = some s2 := by
  induction l with
  | nil => simp at h
  | cons a l ih =>
      by_cases ha : a.identifier = "global"
      · rw [setGlobal]
        simp only [ha, beq_self_eq_true, if_true]
        exact List.find?_cons_of_pos _ (by simp [h2])
      · rw [setGlobal]
        simp only [beq_iff_eq, ha, if_false]
        rw [List.find?_cons_of_neg _ (by simp [ha])]
        rw [List.find?_cons_of_neg _ (by simp [ha])] at h
        exact ih h

theorem find?_global_append_none (l : List StatsDoc) (s2 : StatsDoc)
    (h : l.find? (fun t => t.identifier == "global") = none)
    (h2 : s2.identifier = "global") :
    (l ++ [s2]).find? (fun t => t.identifier == "global") = some s2 := by
  rw [List.find?_append, h]
  have hp : (fun t : StatsDoc => t.identifier == "global") s2 = true := by simp [h2]
  rw [Option.none_or]
  exact List.find?_cons_of_pos _ hp

theorem identifier_of_findGlobal {db : DB} {s : StatsDoc} (h : findGlobal db = some s) :
    s.identifier = "global" := by
  unfold findGlobal at h
  have := List.find?_some h
  simpa using this

theorem totalUnits_incrementCount (db : DB) (a : Int) (now : Nat) :
    totalUnits (incrementCount db a now).1 = totalUnits db + a := by
  unfold incrementCount
  cases h : findGlobal db with
  | none =>
      have hfind := find?_global_append_none db.stats
        ({ identifier := "global", totalBloodUnits := a, lastUpdated := now }) h rfl
      unfold findGlobal at h
      simp [totalUnits, findGlobal, hfind, h]
  | some s =>
      have hid : s.identifier = "global" := identifier_of_findGlobal h
      have hfind := find?_setGlobal db.stats s
        ({ s with totalBloodUnits := s.totalBloodUnits + a, lastUpdated := now }) h hid
      unfold findGlobal at h
      simp [totalUnits, findGlobal, hfind, h]

theorem donors_incrementCount (db : DB) (a : Int) (now : Nat) :
    (incrementCount db a now).1.donors = db.donors := by
  unfold incrementCount
  cases findGlobal db <;> rfl

/-! ## Trimming lemmas -/

theorem dropWhile_dropWhile (p : Char → Bool) (l : List Char) :
    (l.dropWhile p).dropWhile p = l.dropWhile p := by
  induction l with
  | nil => rfl
  | cons a l ih =>
      by_cases h : p a = true <;> simp [List.dropWhile_cons, h, ih]

theorem trimL_trimL (l : List Char) : trimL (trimL l) = trimL l :=
  dropWhile_dropWhile _ l

theorem trimR_trimR (l : List Char) : trimR (trimR l) = trimR l := by
  unfold trimR
  rw [List.reverse_reverse, dropWhile_dropWhile]

theorem head_dropWhile_not (p : Char → Bool) (l : List Char) (a : Char)
    (h : (l.dropWhile p).head? = some a) : p a = false := by
  induction l with
  | nil => simp at h
  | cons b l ih =>
      rw [List.dropWhile_cons] at h
      by_cases hb : p b = true
      · rw [if_pos hb] at h
        exact ih h
      · rw [if_neg hb] at h
        have hba : b = a := by simpa using h
        subst hba
        simpa using hb

theorem dropWhile_suffix_ex (p : Char → Bool) (l : List Char) :
    ∃ t, t ++ l.dropWhile p = l := by
  induction l with
  | nil => exact ⟨[], rfl⟩
  | cons b l ih =>
      by_cases hb : p b = true
      · rcases ih with ⟨t, ht⟩
        exact ⟨b :: t, by simp [List.dropWhile_cons, hb, ht]⟩
      · exact ⟨[], by simp [List.dropWhile_cons, hb]⟩

theorem trimR_front_ex (l : List Char) : ∃ r, trimR l ++ r = l := by
  rcases dropWhile_suffix_ex jsWhitespace l.reverse with ⟨t, ht⟩
  refine ⟨t.reverse, ?_⟩
  have h2 := congrArg List.reverse ht
  simpa [trimR] using h2

theorem head?_of_append {l r m : List Char} (h : l ++ r = m) (hne : l ≠ []) :
    m.head? = l.head? := by
  cases l with
  | nil => exact absurd rfl hne
  | cons a t => rw [← h]; rfl

theorem trimL_eq_self (l : List Char)
    (h : ∀ a, l.head? = some a → jsWhitespace a = false) : trimL l = l := by
  cases l with
  | nil => rfl
  | cons b t =>
      have hb := h b rfl
      simp [trimL, List.dropWhile_cons, hb]

theorem head_trimR_trimL (l : List Char) (a : Char)
    (h : (trimR (trimL l)).head? = some a) : jsWhitespace a = false := by
  rcases trimR_front_ex (trimL l) with ⟨r, hr⟩
  have hne : trimR (trimL l) ≠ [] := by
    intro hnil
    rw [hnil] at h
    cases h
  have hm : (trimL l).head? = (trimR (trimL l)).head? := head?_of_append hr hne
  have hh : (l.dropWhile jsWhitespace).head? = some a := by
    rw [show l.dropWhile jsWhitespace = trimL l from rfl, hm, h]
  exact head_dropWhile_not jsWhitespace l a hh

theorem jsTrim_data (s : String) : (jsTrim s).data = trimR (trimL s.data) := rfl

theorem trimL_trimR_trimL (l : List Char) :
    trimL (trimR (trimL l)) = trimR (trimL l) := by
  cases hh : (trimR (trimL l)).head? with
  | none =>
      have hnil : trimR (trimL l) = [] := by
        cases htr : trimR (trimL l) with
        | nil => rfl
        | cons x xs => rw [htr] at hh; cases hh
      rw [hnil]
      rfl
  | some a =>
      apply trimL_eq_self
      intro a2 h2
      rw [hh] at h2
      cases h2
      exact head_trimR_trimL l a hh

theorem jsTrim_idem (s : String) : jsTrim (jsTrim s) = jsTrim s := by
  show (⟨trimR (trimL (jsTrim s).data)⟩ : String) = jsTrim s
  rw [jsTrim_data, trimL_trimR_trimL, trimR_trimR]
  rfl

theorem jsTrim_head_not_ws (s : String) (a : Char)
    (h : (jsTrim s).data.head? = some a) : jsWhitespace a = false := by
  rw [jsTrim_data] at h
  exact head_trimR_trimL s.data a h

theorem jsTrim_last_not_ws (s : String) (a : Char)
    (h : (jsTrim s).data.getLast? = some a) : jsWhitespace a = false := by
  rw [jsTrim_data] at h
  unfold trimR at h
  rw [List.getLast?_reverse] at h
  exact head_dropWhile_not _ _ _ h

/-! ## C9: increment on an absent singleton upserts it -/

/-- C9: when no stats document exists yet, `incrementCount` creates the
singleton via upsert rather than failing; the created document carries the
singleton key and `totalBloodUnits` equal to the increment amount, so the
observable total equals the amount. -/
theorem incrementCount_upserts_when_absent (db : DB) (amount : Int) (now : Nat)
    (h : findGlobal db = none) :
    (incrementCount db amount now).2.identifier = "global"
    ∧ (incrementCount db amount now).2.totalBloodUnits = amount
    ∧ findGlobal (incrementCount db amount now).1 = some (incrementCount db amount now).2
    ∧ totalUnits (incrementCount db amount now).1 = amount := by
  have ht := totalUnits_incrementCount db amount now
  have h0 : totalUnits db = 0 := by simp [totalUnits, h]
  unfold incrementCount at ht ⊢
  rw [h] at ht ⊢
  refine ⟨rfl, rfl, ?_, by simpa [h0] using ht⟩
  unfold findGlobal at h ⊢
  rw [List.find?_append, h]
  rfl

/-- Witness for C9: starting from the empty store, an increment by 1 creates
the singleton holding exactly 1, before any `getStats` ran. -/
theorem incrementCount_upserts_when_absent_witness :
    (incrementCount ⟨[], []⟩ 1 5).2.identifier = "global"
    ∧ (incrementCount ⟨[], []⟩ 1 5).2.totalBloodUnits = 1
    ∧ findGlobal (incrementCount ⟨[], []⟩ 1 5).1 = some (incrementCount ⟨[], []⟩ 1 5).2
    ∧ totalUnits (incrementCount ⟨[], []⟩ 1 5).1 = 1 :=
  incrementCount_upserts_when_absent ⟨[], []⟩ 1 5 (by decide)

/-! ## C4: the reconciliation endpoint -/

/-- C4: for every store state (in particular one where a donor exists but the
aggregate was never incremented), `POST /api/sync-stats` sets `totalBloodUnits`
to the exact donor count, stamps `lastUpdated` with the current time, and
answers 200 with the new total. -/
theorem syncStats_reconciles (db : DB) (now : Nat) :
    totalUnits (syncStatsHandler db now).1 = db.donors.length
    ∧ (∃ s, findGlobal (syncStatsHandler db now).1 = some s
        ∧ s.totalBloodUnits = db.donors.length ∧ s.lastUpdated = now)
    ∧ (syncStatsHandler db now).1.donors = db.donors
    ∧ (syncStatsHandler db now).2.status = 200
    ∧ (syncStatsHandler db now).2.body.lookup "success" = some (.bool true)
    ∧ (syncStatsHandler db now).2.body.lookup "data"
        = some (.obj [("totalBloodUnits", .int db.donors.length)]) := by
  unfold syncStatsHandler
  cases h : findGlobal db with
  | none =>
      have hfind := find?_global_append_none db.stats
        ({ identifier := "global", totalBloodUnits := db.donors.length, lastUpdated := now }) h rfl
      exact ⟨by simp [totalUnits, findGlobal, hfind], ⟨_, hfind, rfl, rfl⟩, rfl, rfl, rfl, rfl⟩
  | some s =>
      have hid : s.identifier = "global" := identifier_of_findGlobal h
      have hfind := find?_setGlobal db.stats s
        ({ s with totalBloodUnits := (db.donors.length : Int), lastUpdated := now }) h hid
      exact ⟨by simp [totalUnits, findGlobal, hfind], ⟨_, hfind, rfl, rfl⟩, rfl, rfl, rfl, rfl⟩

/-! ## The registration success path -/

theorem totalUnits_donorAppend (db : DB) (l : List Donor) :
    totalUnits { db with donors := l } = totalUnits db := rfl

theorem incrementCount_snd (db : DB) (a : Int) (now : Nat) :
    (incrementCount db a now).2.totalBloodUnits = totalUnits db + a := by
  unfold incrementCount
  cases h : findGlobal db with
  | none => simp [totalUnits, h]
  | some s => simp [totalUnits, h]

/-- The behaviour of the donate handler on a submission that passes every
validation rule, for all three storage-failure settings. -/
theorem donateHandler_shape (db : DB) (name bg ageStr yr : String) (k : Int)
    (now : Nat) (sf incf : Bool)
    (hname2 : 2 ≤ utf16Len (jsTrim name))
    (hbg : validBloodGroups.contains bg = true) (hbgne : bg ≠ "")
    (hyr : validYears.contains yr = true) (hyrne : yr ≠ "")
    (hage : jsParseInt ageStr = some k) (hagene : ageStr ≠ "")
    (hk1 : 18 ≤ k) (hk2 : k ≤ 65) :
    donateHandler db ⟨some name, some bg, some ageStr, some yr⟩ sf incf now =
      if sf then (db, ⟨500, errorBody "Server error. Please try again later."⟩)
      else if incf then
        ({ db with donors := db.donors ++ [⟨jsTrim name, bg, k, yr, now⟩] },
         ⟨500, errorBody "Server error. Please try again later."⟩)
      else
        ((incrementCount { db with donors := db.donors ++ [⟨jsTrim name, bg, k, yr, now⟩] } 1 now).1,
         ⟨201, .obj [("success", .bool true),
               ("message", .str "Donation registered successfully"),
               ("data", .obj [("donor", .obj [("fullName", .str (jsTrim name)),
                                              ("bloodGroup", .str bg)]),
                              ("totalUnits", .int (totalUnits db + 1))])]⟩) := by
  have hnameNe : name ≠ "" := by
    intro h0
    rw [h0] at hname2
    exact absurd hname2 (by decide)
  have hcond : (truthyStr (some name) && truthyStr (some bg) && truthyStr (some ageStr)
      && truthyStr (some yr)) = true := by
    simp [truthyStr, hnameNe, hbgne, hagene, hyrne]
  have htrim2 : ¬ utf16Len (jsTrim name) < 2 := by omega
  have hfnNe : ¬ ((jsTrim name) == "") = true := by
    simp only [beq_iff_eq]
    intro h0
    rw [h0] at hname2
    exact absurd hname2 (by decide)
  have herr : donorValidationErrors ⟨jsTrim (jsTrim name), bg, k, yr, now⟩ = [] := by
    unfold donorValidationErrors
    rw [jsTrim_idem]
    rw [if_neg hfnNe, if_neg htrim2, if_pos hbg, if_neg (by omega : ¬ k < 18),
        if_neg (by omega : ¬ 65 < k), if_pos hyr]
    rfl
  have hsave : saveDonor db ⟨jsTrim name, bg, k, yr, now⟩
      = Except.ok { db with donors := db.donors ++ [⟨jsTrim name, bg, k, yr, now⟩] } := by
    unfold saveDonor
    simp only [herr]
    rw [jsTrim_idem]
  unfold donateHandler
  rw [hcond]
  simp only [Bool.not_true, Bool.false_eq_true, if_false, Option.getD_some, hage]
  rw [if_neg (by omega : ¬ k < 18), hbg, hyr]
  simp only [Bool.not_true, Bool.false_eq_true, if_false, hsave]
  have hsnd := incrementCount_snd { db with donors := db.donors ++ [⟨jsTrim name, bg, k, yr, now⟩] } 1 now
  rw [totalUnits_donorAppend] at hsnd
  rw [hsnd]

/-! ## C1: successful registration -/

/-- C1: a valid submission (all four fields present, trimmed name of length at
least 2, listed blood group, integral age in `[18, 65]`, listed year) is
persisted as a donor record, the aggregate is incremented by 1, and the
response is 201 with `{success:true, data:{donor:{fullName, bloodGroup},
totalUnits}}` where `totalUnits` is the previous total plus exactly 1. -/
theorem donate_valid_success (db : DB) (name bg ageStr yr : String) (k : Int) (now : Nat)
    (hname2 : 2 ≤ utf16Len (jsTrim name))
    (hbg : validBloodGroups.contains bg = true) (hbgne : bg ≠ "")
    (hyr : validYears.contains yr = true) (hyrne : yr ≠ "")
    (hage : jsParseInt ageStr = some k) (hagene : ageStr ≠ "")
    (hk1 : 18 ≤ k) (hk2 : k ≤ 65) :
    (donateHandler db ⟨some name, some bg, some ageStr, some yr⟩ false false now).2.status = 201
    ∧ (donateHandler db ⟨some name, some bg, some ageStr, some yr⟩ false false now).1.donors
        = db.donors ++ [⟨jsTrim name, bg, k, yr, now⟩]
    ∧ totalUnits (donateHandler db ⟨some name, some bg, some ageStr, some yr⟩ false false now).1
        = totalUnits db + 1
    ∧ (donateHandler db ⟨some name, some bg, some ageStr, some yr⟩ false false now).2.body.lookup "success"
        = some (.bool true)
    ∧ ((donateHandler db ⟨some name, some bg, some ageStr, some yr⟩ false false now).2.body.lookup "data").bind
        (fun j => j.lookup "totalUnits") = some (.int (totalUnits db + 1))
    ∧ ((donateHandler db ⟨some name, some bg, some ageStr, some yr⟩ false false now).2.body.lookup "data").bind
        (fun j => j.lookup "donor")
        = some (.obj [("fullName", .str (jsTrim name)), ("bloodGroup", .str bg)]) := by
  rw [donateHandler_shape db name bg ageStr yr k now false false hname2 hbg hbgne hyr hyrne hage hagene hk1 hk2]
  refine ⟨rfl, ?_, ?_, rfl, rfl, rfl⟩
  · show (incrementCount { db with donors := db.donors ++ [⟨jsTrim name, bg, k, yr, now⟩] } 1 now).1.donors
        = db.donors ++ [⟨jsTrim name, bg, k, yr, now⟩]
    rw [donors_incrementCount]
  · show totalUnits (incrementCount { db with donors := db.donors ++ [⟨jsTrim name, bg, k, yr, now⟩] } 1 now).1
        = totalUnits db + 1
    rw [totalUnits_incrementCount, totalUnits_donorAppend]

/-- Witness for C1: the spec scenario `{fullName:"Jane Doe", bloodGroup:"O-",
age:30, year:"SY"}` against a store already holding 5 units. -/
theorem donate_valid_success_witness :
    (donateHandler ⟨[], [⟨"global", 5, 0⟩]⟩ ⟨some "Jane Doe", some "O-", some "30", some "SY"⟩ false false 7).2.status = 201
    ∧ (donateHandler ⟨[], [⟨"global", 5, 0⟩]⟩ ⟨some "Jane Doe", some "O-", some "30", some "SY"⟩ false false 7).1.donors
        = [] ++ [⟨jsTrim "Jane Doe", "O-", 30, "SY", 7⟩]
    ∧ totalUnits (donateHandler ⟨[], [⟨"global", 5, 0⟩]⟩ ⟨some "Jane Doe", some "O-", some "30", some "SY"⟩ false false 7).1
        = totalUnits ⟨[], [⟨"global", 5, 0⟩]⟩ + 1
    ∧ (donateHandler ⟨[], [⟨"global", 5, 0⟩]⟩ ⟨some "Jane Doe", some "O-", some "30", some "SY"⟩ false false 7).2.body.lookup "success"
        = some (.bool true)
    ∧ ((donateHandler ⟨[], [⟨"global", 5, 0⟩]⟩ ⟨some "Jane Doe", some "O-", some "30", some "SY"⟩ false false 7).2.body.lookup "data").bind
        (fun j => j.lookup "totalUnits") = some (.int (totalUnits ⟨[], [⟨"global", 5, 0⟩]⟩ + 1))
    ∧ ((donateHandler ⟨[], [⟨"global", 5, 0⟩]⟩ ⟨some "Jane Doe", some "O-", some "30", some "SY"⟩ false false 7).2.body.lookup "data").bind
        (fun j => j.lookup "donor")
        = some (.obj [("fullName", .str (jsTrim "Jane Doe")), ("bloodGroup", .str "O-")]) :=
  donate_valid_success ⟨[], [⟨"global", 5, 0⟩]⟩ "Jane Doe" "O-" "30" "SY" 30 7
    (by decide) (by decide) (by decide) (by decide) (by decide) (by decide) (by decide)
    (by decide) (by decide)

/-! ## C5: partial failure of the registration transaction -/

/-- C5: on a valid submission, if the donor write succeeds but the subsequent
increment fails, the donor record still exists (not rolled back), the total
is unchanged (undercounting the donor store by the one new record), and the
caller gets a 500; if the donor write itself fails, the transaction aborts
with no donor persisted, no increment, and a 500. -/
theorem registration_failure_semantics (db : DB) (name bg ageStr yr : String)
    (k : Int) (now : Nat)
    (hname2 : 2 ≤ utf16Len (jsTrim name))
    (hbg : validBloodGroups.contains bg = true) (hbgne : bg ≠ "")
    (hyr : validYears.contains yr = true) (hyrne : yr ≠ "")
    (hage : jsParseInt ageStr = some k) (hagene : ageStr ≠ "")
    (hk1 : 18 ≤ k) (hk2 : k ≤ 65) :
    ((donateHandler db ⟨some name, some bg, some ageStr, some yr⟩ false true now).1.donors
        = db.donors ++ [⟨jsTrim name, bg, k, yr, now⟩]
     ∧ totalUnits (donateHandler db ⟨some name, some bg, some ageStr, some yr⟩ false true now).1
        = totalUnits db
     ∧ (donateHandler db ⟨some name, some bg, some ageStr, some yr⟩ false true now).2.status = 500)
    ∧ ((donateHandler db ⟨some name, some bg, some ageStr, some yr⟩ true false now).1 = db
     ∧ (donateHandler db ⟨some name, some bg, some ageStr, some yr⟩ true false now).2.status = 500) := by
  rw [donateHandler_shape db name bg ageStr yr k now false true hname2 hbg hbgne hyr hyrne hage hagene hk1 hk2]
  rw [donateHandler_shape db name bg ageStr yr k now true false hname2 hbg hbgne hyr hyrne hage hagene hk1 hk2]
  exact ⟨⟨rfl, rfl, rfl⟩, rfl, rfl⟩

/-- Witness for C5: the same valid submission under an increment failure and
under a donor-write failure. -/
theorem registration_failure_semantics_witness :
    ((donateHandler ⟨[], [⟨"global", 5, 0⟩]⟩ ⟨some "Jane Doe", some "O-", some "30", some "SY"⟩ false true 7).1.donors
        = [] ++ [⟨jsTrim "Jane Doe", "O-", 30, "SY", 7⟩]
     ∧ totalUnits (donateHandler ⟨[], [⟨"global", 5, 0⟩]⟩ ⟨some "Jane Doe", some "O-", some "30", some "SY"⟩ false true 7).1
        = totalUnits ⟨[], [⟨"global", 5, 0⟩]⟩
     ∧ (donateHandler ⟨[], [⟨"global", 5, 0⟩]⟩ ⟨some "Jane Doe", some "O-", some "30", some "SY"⟩ false true 7).2.status = 500)
    ∧ ((donateHandler ⟨[], [⟨"global", 5, 0⟩]⟩ ⟨some "Jane Doe", some "O-", some "30", some "SY"⟩ true false 7).1 = ⟨[], [⟨"global", 5, 0⟩]⟩
     ∧ (donateHandler ⟨[], [⟨"global", 5, 0⟩]⟩ ⟨some "Jane Doe", some "O-", some "30", some "SY"⟩ true false 7).2.status = 500) :=
  registration_failure_semantics ⟨[], [⟨"global", 5, 0⟩]⟩ "Jane Doe" "O-" "30" "SY" 30 7
    (by decide) (by decide) (by decide) (by decide) (by decide) (by decide) (by decide)
    (by decide) (by decide)

/-! ## C10: stored names are trimmed -/

theorem saveDonor_ok_donors {db : DB} {d : Donor} {db1 : DB}
    (h : saveDonor db d = Except.ok db1) :
    db1.donors = db.donors ++ [{ d with fullName := jsTrim d.fullName }] := by
  simp only [saveDonor] at h
  split at h
  · injection h with h2
    rw [← h2]
  · cases h

theorem mem_after_save {db db1 : DB} {don d : Donor}
    (heq : saveDonor db don = Except.ok db1) (hd : d ∈ db1.donors) :
    d ∈ db.donors ∨ d = { don with fullName := jsTrim don.fullName } := by
  rw [saveDonor_ok_donors heq] at hd
  rcases List.mem_append.mp hd with h | h
  · exact Or.inl h
  · right
    simpa using h

/-- C10: any donor document present after a call of the donate handler was
either already stored, or is the newly persisted record, whose `fullName` is
the submitted name with surrounding whitespace removed (the handler trims and
the schema setter trims again, idempotently), hence carries no leading or
trailing whitespace. -/
theorem donate_persists_trimmed_name (db : DB) (b : DonateBody)
    (sf incf : Bool) (now : Nat) (d : Donor)
    (hd : d ∈ (donateHandler db b sf incf now).1.donors) :
    d ∈ db.donors
    ∨ (d.fullName = jsTrim (b.fullName.getD "")
       ∧ jsTrim d.fullName = d.fullName
       ∧ (∀ a, d.fullName.data.head? = some a → jsWhitespace a = false)
       ∧ (∀ a, d.fullName.data.getLast? = some a → jsWhitespace a = false)) := by
  simp only [donateHandler] at hd
  split at hd
  · exact Or.inl hd
  · split at hd
    · exact Or.inl hd
    · split at hd
      · exact Or.inl hd
      · split at hd
        · exact Or.inl hd
        · split at hd
          · exact Or.inl hd
          · rename_i db1 heq
            have hcont : d ∈ db1.donors →
                d ∈ db.donors
                ∨ (d.fullName = jsTrim (b.fullName.getD "")
                   ∧ jsTrim d.fullName = d.fullName
                   ∧ (∀ a, d.fullName.data.head? = some a → jsWhitespace a = false)
                   ∧ (∀ a, d.fullName.data.getLast? = some a → jsWhitespace a = false)) := by
              intro hmem
              rcases mem_after_save heq hmem with h | h
              · exact Or.inl h
              · right
                subst h
                refine ⟨jsTrim_idem _, jsTrim_idem _, ?_, ?_⟩
                · intro a ha
                  exact jsTrim_head_not_ws _ a ha
                · intro a ha
                  exact jsTrim_last_not_ws _ a ha
            split at hd
            · exact Or.inl hd
            · split at hd
              · exact hcont hd
              · rw [donors_incrementCount] at hd
                exact hcont hd

/-- Witness for C10: the concrete registration of `"  Jane Doe "` stores the
trimmed name `"Jane Doe"`. -/
theorem donate_persists_trimmed_name_witness :
    (⟨"Jane Doe", "O-", 30, "SY", 7⟩ : Donor) ∈ (⟨[], []⟩ : DB).donors
    ∨ ((⟨"Jane Doe", "O-", 30, "SY", 7⟩ : Donor).fullName
          = jsTrim ((some "  Jane Doe ").getD "")
       ∧ jsTrim (⟨"Jane Doe", "O-", 30, "SY", 7⟩ : Donor).fullName
          = (⟨"Jane Doe", "O-", 30, "SY", 7⟩ : Donor).fullName
       ∧ (∀ a, (⟨"Jane Doe", "O-", 30, "SY", 7⟩ : Donor).fullName.data.head? = some a
            → jsWhitespace a = false)
       ∧ (∀ a, (⟨"Jane Doe", "O-", 30, "SY", 7⟩ : Donor).fullName.data.getLast? = some a
            → jsWhitespace a = false)) :=
  donate_persists_trimmed_name ⟨[], []⟩ ⟨some "  Jane Doe ", some "O-", some "30", some "SY"⟩
    false false 7 ⟨"Jane Doe", "O-", 30, "SY", 7⟩ (by decide)

/-! ## C2: rejected submissions -/

theorem saveDonor_ok_valid {db : DB} {d : Donor} {db1 : DB}
    (h : saveDonor db d = Except.ok db1) :
    donorValidationErrors { d with fullName := jsTrim d.fullName } = [] := by
  simp only [saveDonor] at h
  split at h
  · assumption
  · cases h

theorem donorValidationErrors_nil {d : Donor} (h : donorValidationErrors d = []) :
    2 ≤ utf16Len d.fullName
    ∧ validBloodGroups.contains d.bloodGroup = true
    ∧ 18 ≤ d.age ∧ d.age ≤ 65
    ∧ validYears.contains d.year = true := by
  unfold donorValidationErrors at h
  obtain ⟨h, hE⟩ := List.append_eq_nil.mp h
  obtain ⟨h, hD⟩ := List.append_eq_nil.mp h
  obtain ⟨h, hC⟩ := List.append_eq_nil.mp h
  obtain ⟨hA, hB⟩ := List.append_eq_nil.mp h
  refine ⟨?_, ?_, ?_, ?_, ?_⟩
  · by_cases h1 : (d.fullName == "") = true
    · simp [h1] at hA
    · by_cases h2 : utf16Len d.fullName < 2
      · simp [h1, h2] at hA
      · omega
  · simpa using hB
  · by_cases h1 : d.age < 18
    · simp [h1] at hC
    · omega
  · by_cases h1 : 65 < d.age
    · simp [h1] at hD
    · omega
  · simpa using hE

/-- C2 counterexample: the submission `{fullName:"Jane Doe", bloodGroup:"O-",
age:18.5, year:"FY"}` has a non-integral age, so the claim requires a 400
with nothing persisted; but `parseInt` truncates `18.5` to `18`, and the code
answers 201, persists the donor (with age 18), and increments the total. -/
theorem donate_noninteger_age_cex :
    jsParseInt "18.5" = some 18
    ∧ (donateHandler ⟨[], []⟩ ⟨some "Jane Doe", some "O-", some "18.5", some "FY"⟩ false false 7).2.status = 201
    ∧ (donateHandler ⟨[], []⟩ ⟨some "Jane Doe", some "O-", some "18.5", some "FY"⟩ false false 7).1.donors
        = [⟨"Jane Doe", "O-", 18, "FY", 7⟩]
    ∧ totalUnits (donateHandler ⟨[], []⟩ ⟨some "Jane Doe", some "O-", some "18.5", some "FY"⟩ false false 7).1 = 1 :=
  ⟨by decide, by decide, by decide, by decide⟩

/-- C2 (amended): a submission with a missing (JavaScript-falsy) field, a
trimmed name shorter than 2 characters, a blood group outside the closed set,
an age whose `parseInt` value is below 18 or above 65 (non-integer ages are
truncated by `parseInt` and judged by their integer part), or a year outside
the closed set, is rejected with 400, no donor is persisted, and the total is
unchanged. -/
theorem donate_invalid_rejected (db : DB) (b : DonateBody) (now : Nat)
    (H : truthyStr b.fullName = false ∨ truthyStr b.bloodGroup = false
      ∨ truthyStr b.age = false ∨ truthyStr b.year = false
      ∨ utf16Len (jsTrim (b.fullName.getD "")) < 2
      ∨ validBloodGroups.contains (b.bloodGroup.getD "") = false
      ∨ (jsParseInt (b.age.getD "")).getD 0 < 18
      ∨ 65 < (jsParseInt (b.age.getD "")).getD 0
      ∨ validYears.contains (b.year.getD "") = false) :
    (donateHandler db b false false now).2.status = 400
    ∧ (donateHandler db b false false now).1 = db := by
  by_cases hc : (truthyStr b.fullName && truthyStr b.bloodGroup && truthyStr b.age
      && truthyStr b.year) = true
  · have hc4 := hc
    simp only [Bool.and_eq_true] at hc4
    obtain ⟨⟨⟨hf, hbgT⟩, haT⟩, hyT⟩ := hc4
    by_cases ha : (jsParseInt (b.age.getD "")).getD 0 < 18
    · constructor <;> simp [donateHandler, hc, ha]
    · by_cases hbgm : b.bloodGroup.getD "" ∈ validBloodGroups
      · by_cases hyrm : b.year.getD "" ∈ validYears
        · cases hsv : saveDonor db ⟨jsTrim (b.fullName.getD ""), b.bloodGroup.getD "",
              (jsParseInt (b.age.getD "")).getD 0, b.year.getD "", now⟩ with
          | error msgs =>
              constructor <;> simp [donateHandler, hc, ha, hbgm, hyrm, hsv]
          | ok db1 =>
              exfalso
              have hval := donorValidationErrors_nil (saveDonor_ok_valid hsv)
              obtain ⟨hlen, _, _, hage65, _⟩ := hval
              have hlen2 : 2 ≤ utf16Len (jsTrim (b.fullName.getD "")) := by
                simpa [jsTrim_idem] using hlen
              have hage65b : (jsParseInt (b.age.getD "")).getD 0 ≤ 65 := by
                simpa using hage65
              rcases H with h | h | h | h | h | h | h | h | h
              · rw [h] at hf; cases hf
              · rw [h] at hbgT; cases hbgT
              · rw [h] at haT; cases haT
              · rw [h] at hyT; cases hyT
              · omega
              · have hbgc2 : validBloodGroups.contains (b.bloodGroup.getD "") = true := by
                  simpa using hbgm
                rw [h] at hbgc2; cases hbgc2
              · exact ha h
              · omega
              · have hyrc2 : validYears.contains (b.year.getD "") = true := by
                  simpa using hyrm
                rw [h] at hyrc2; cases hyrc2
        · constructor <;> simp [donateHandler, hc, ha, hbgm, hyrm]
      · constructor <;> simp [donateHandler, hc, ha, hbgm]
  · have hcf : (truthyStr b.fullName && truthyStr b.bloodGroup && truthyStr b.age
        && truthyStr b.year) = false := by
      revert hc
      cases truthyStr b.fullName && truthyStr b.bloodGroup && truthyStr b.age && truthyStr b.year
          <;> simp
    constructor <;> simp [donateHandler, hcf]

/-- Witness for C2 (amended): an under-age submission (age 17) is rejected
with 400 and leaves the store untouched. -/
theorem donate_invalid_rejected_witness :
    (donateHandler ⟨[], [⟨"global", 5, 0⟩]⟩ ⟨some "Jane Doe", some "O-", some "17", some "FY"⟩ false false 7).2.status = 400
    ∧ (donateHandler ⟨[], [⟨"global", 5, 0⟩]⟩ ⟨some "Jane Doe", some "O-", some "17", some "FY"⟩ false false 7).1
        = ⟨[], [⟨"global", 5, 0⟩]⟩ :=
  donate_invalid_rejected ⟨[], [⟨"global", 5, 0⟩]⟩
    ⟨some "Jane Doe", some "O-", some "17", some "FY"⟩ 7 (by decide)

/-! ## C3: concurrent registrations are never lost -/

theorem runActs_counts (acts : List RegAct) (db : DB) :
    totalUnits (runActs db acts) = totalUnits db + acts.countP RegAct.isInc
    ∧ (runActs db acts).donors.length
        = db.donors.length + acts.countP (fun a => ! a.isInc) := by
  induction acts generalizing db with
  | nil => simp [runActs]
  | cons a rest ih =>
      cases a with
      | save d =>
          have h := ih { db with donors := db.donors ++ [d] }
          constructor
          · rw [runActs, applyAct, h.1]
            simp [totalUnits_donorAppend, List.countP_cons, RegAct.isInc]
          · rw [runActs, applyAct, h.2]
            simp [List.countP_cons, RegAct.isInc]
            omega
      | inc now =>
          have h := ih (incrementCount db 1 now).1
          constructor
          · rw [runActs, applyAct, h.1, totalUnits_incrementCount]
            simp [List.countP_cons, RegAct.isInc]
            omega
          · rw [runActs, applyAct, h.2, donors_incrementCount]
            simp [List.countP_cons, RegAct.isInc]

/-- C3: every interleaving of the atomic storage writes of K concurrent valid
registrations (K donor inserts and K atomic increments by 1, in any order)
leaves `totalUnits` exactly K above its starting value — no lost updates,
because each increment is a single atomic read-modify-write — and leaves the
donor count exactly K above its starting value. -/
theorem concurrent_registrations_add_K (db : DB) (acts : List RegAct) (K : Nat)
    (hinc : acts.countP RegAct.isInc = K)
    (hsave : acts.countP (fun a => ! a.isInc) = K) :
    totalUnits (runActs db acts) = totalUnits db + K
    ∧ (runActs db acts).donors.length = db.donors.length + K := by
  have h := runActs_counts acts db
  rw [hinc] at h
  rw [hsave] at h
  exact h

/-- Witness for C3: two concurrent registrations whose writes interleave
(both donor inserts land before either increment) still add exactly 2 to the
total and 2 to the donor count. -/
theorem concurrent_registrations_add_K_witness :
    totalUnits (runActs ⟨[], [⟨"global", 3, 0⟩]⟩
        [RegAct.save ⟨"Ann Lee", "A+", 20, "FY", 1⟩,
         RegAct.save ⟨"Bo Chen", "O-", 22, "SY", 2⟩,
         RegAct.inc 3, RegAct.inc 4])
      = totalUnits ⟨[], [⟨"global", 3, 0⟩]⟩ + 2
    ∧ (runActs ⟨[], [⟨"global", 3, 0⟩]⟩
        [RegAct.save ⟨"Ann Lee", "A+", 20, "FY", 1⟩,
         RegAct.save ⟨"Bo Chen", "O-", 22, "SY", 2⟩,
         RegAct.inc 3, RegAct.inc 4]).donors.length
      = (⟨[], [⟨"global", 3, 0⟩]⟩ : DB).donors.length + 2 :=
  concurrent_registrations_add_K ⟨[], [⟨"global", 3, 0⟩]⟩
    [RegAct.save ⟨"Ann Lee", "A+", 20, "FY", 1⟩,
     RegAct.save ⟨"Bo Chen", "O-", 22, "SY", 2⟩,
     RegAct.inc 3, RegAct.inc 4] 2 (by decide) (by decide)

/-! ## C6: the singleton invariant under concurrent lazy initialisation -/

theorem globalCount_pos_of_find {db : DB} {s : StatsDoc} (h : findGlobal db = some s) :
    1 ≤ globalCount db := by
  have hs := List.mem_of_find?_eq_some h
  have hp := List.find?_some h
  have hpos : 0 < db.stats.countP (fun t => t.identifier == "global") :=
    List.countP_pos_iff.mpr ⟨s, hs, hp⟩
  unfold globalCount
  omega

theorem globalCount_pos_of_any {db : DB}
    (h : db.stats.any (fun s => s.identifier == "global") = true) :
    1 ≤ globalCount db := by
  obtain ⟨s, hs, hp⟩ := List.any_eq_true.mp h
  have hpos : 0 < db.stats.countP (fun t => t.identifier == "global") :=
    List.countP_pos_iff.mpr ⟨s, hs, hp⟩
  unfold globalCount
  omega

theorem globalCount_append_one (db : DB) (s2 : StatsDoc) (h2 : s2.identifier = "global") :
    globalCount { db with stats := db.stats ++ [s2] } = globalCount db + 1 := by
  unfold globalCount
  simp [List.countP_append, List.countP_cons, h2]

theorem getInv_step (db : DB) (cs : List GetPC) (i now : Nat) (pc : GetPC)
    (hpc : cs[i]? = some pc) (hinv : getInv db cs) :
    getInv (getStatsStep db pc now).1 (cs.set i (getStatsStep db pc now).2) := by
  obtain ⟨h1, h2, h3⟩ := hinv
  have hmem : pc ∈ cs := by
    have := List.getElem?_eq_some_iff.mp hpc
    obtain ⟨hlt, heq⟩ := this
    exact heq ▸ List.getElem_mem hlt
  have main : globalCount (getStatsStep db pc now).1 ≤ 1
      ∧ globalCount db ≤ globalCount (getStatsStep db pc now).1
      ∧ ((getStatsStep db pc now).2.finished = true
          → 1 ≤ globalCount (getStatsStep db pc now).1)
      ∧ (∀ s ∈ (getStatsStep db pc now).1.stats, s.identifier = "global"
          → s.totalBloodUnits = 0) := by
    cases pc with
    | start =>
        cases h : findGlobal db with
        | some s =>
            have hpos := globalCount_pos_of_find h
            simp only [getStatsStep, h]
            refine ⟨h1, le_refl _, fun _ => hpos, h3⟩
        | none =>
            simp only [getStatsStep, h]
            refine ⟨h1, le_refl _, ?_, h3⟩
            intro hf
            cases hf
    | sawNone =>
        by_cases hany : (db.stats.any (fun s => s.identifier == "global")) = true
        · have hpos := globalCount_pos_of_any hany
          simp only [getStatsStep, createStats, hany, if_true]
          refine ⟨h1, le_refl _, fun _ => hpos, h3⟩
        · have hany2 : (db.stats.any (fun s => s.identifier == "global")) = false := by
            revert hany
            cases db.stats.any (fun s => s.identifier == "global") <;> simp
          have hz : globalCount db = 0 := by
            unfold globalCount
            rw [List.countP_eq_zero]
            intro s hs
            have := List.any_eq_false.mp hany2 s hs
            simpa using this
          have hcnt := globalCount_append_one db
            ({ identifier := "global", totalBloodUnits := 0, lastUpdated := now }) rfl
          simp only [getStatsStep, createStats, hany2]
          simp only [Bool.false_eq_true, if_false]
          refine ⟨by omega, by omega, fun _ => by omega, ?_⟩
          intro s hs hid
          rcases List.mem_append.mp hs with hmem2 | hmem2
          · exact h3 s hmem2 hid
          · have hseq : s = { identifier := "global", totalBloodUnits := 0, lastUpdated := now } := by
              simpa using hmem2
            rw [hseq]
    | foundDoc =>
        refine ⟨h1, le_refl _, fun _ => h2 GetPC.foundDoc hmem rfl, h3⟩
    | created =>
        refine ⟨h1, le_refl _, fun _ => h2 GetPC.created hmem rfl, h3⟩
    | failedDup =>
        refine ⟨h1, le_refl _, fun _ => h2 GetPC.failedDup hmem rfl, h3⟩
  obtain ⟨m1, m2, m3, m4⟩ := main
  refine ⟨m1, ?_, m4⟩
  intro q hq hf
  rcases List.mem_or_eq_of_mem_set hq with hq2 | hq2
  · exact le_trans (h2 q hq2 hf) m2
  · subst hq2
    exact m3 hf

theorem runGetStats_inv (sched : List (Nat × Nat)) (db : DB) (cs : List GetPC)
    (hinv : getInv db cs) :
    getInv (runGetStats db cs sched).1 (runGetStats db cs sched).2 := by
  induction sched generalizing db cs with
  | nil => simpa [runGetStats] using hinv
  | cons step rest ih =>
      obtain ⟨i, now⟩ := step
      rw [runGetStats]
      cases hpc : cs[i]? with
      | none => exact ih db cs hinv
      | some pc => exact ih _ _ (getInv_step db cs i now pc hpc hinv)

/-- C6: starting from a store with no singleton document and any number of
concurrent `getStats` callers, after any schedule of their atomic steps at
most one singleton document exists; once any caller has finished, exactly one
exists; and every singleton document was lazily initialised with a zero
counter.  The duplicate-creation race is prevented by the unique index on the
singleton key, which makes the second `create` fail. -/
theorem getStats_singleton (db : DB) (cs : List GetPC) (sched : List (Nat × Nat))
    (hdb : globalCount db = 0)
    (hcs : ∀ pc ∈ cs, pc = GetPC.start) :
    globalCount (runGetStats db cs sched).1 ≤ 1
    ∧ (∀ pc ∈ (runGetStats db cs sched).2, pc.finished = true
        → globalCount (runGetStats db cs sched).1 = 1)
    ∧ (∀ s ∈ (runGetStats db cs sched).1.stats, s.identifier = "global"
        → s.totalBloodUnits = 0) := by
  have hallzero : ∀ s ∈ db.stats, s.identifier = "global" → s.totalBloodUnits = 0 := by
    intro s hs hid
    exfalso
    have hpos : 0 < db.stats.countP (fun t => t.identifier == "global") :=
      List.countP_pos_iff.mpr ⟨s, hs, by simp [hid]⟩
    unfold globalCount at hdb
    omega
  have hfin : ∀ pc ∈ cs, pc.finished = true → 1 ≤ globalCount db := by
    intro pc hm hf
    rw [hcs pc hm] at hf
    cases hf
  have h := runGetStats_inv sched db cs ⟨by omega, hfin, hallzero⟩
  exact ⟨h.1, fun pc hm hf => le_antisymm h.1 (h.2.1 pc hm hf), h.2.2⟩

/-- Witness for C6: two readers race on an empty store; both see no document
and both attempt the lazy `create`.  One creation succeeds, the other is
refused by the unique index, and exactly one zero-valued singleton remains. -/
theorem getStats_singleton_witness :
    globalCount (runGetStats ⟨[], []⟩ [GetPC.start, GetPC.start] [(0, 1), (1, 1), (0, 2), (1, 2)]).1 ≤ 1
    ∧ (∀ pc ∈ (runGetStats ⟨[], []⟩ [GetPC.start, GetPC.start] [(0, 1), (1, 1), (0, 2), (1, 2)]).2,
        pc.finished = true
        → globalCount (runGetStats ⟨[], []⟩ [GetPC.start, GetPC.start] [(0, 1), (1, 1), (0, 2), (1, 2)]).1 = 1)
    ∧ (∀ s ∈ (runGetStats ⟨[], []⟩ [GetPC.start, GetPC.start] [(0, 1), (1, 1), (0, 2), (1, 2)]).1.stats,
        s.identifier = "global" → s.totalBloodUnits = 0) :=
  getStats_singleton ⟨[], []⟩ [GetPC.start, GetPC.start] [(0, 1), (1, 1), (0, 2), (1, 2)]
    (by decide) (by decide)

/-! ## C7: the stats read endpoint -/

/-- C7 counterexample: at a store whose aggregate holds 5, the `GET /api/stats`
response data carries the counter under the key `totalBloodUnits`; there is no
`totalUnits` key, contradicting the claim that the counter field in the
response data is named `totalUnits`. -/
theorem statsHandler_counter_field_cex :
    ((statsHandler ⟨[], [⟨"global", 5, 3⟩]⟩ 9).2.body.lookup "data").bind
        (fun d => d.lookup "totalUnits") = none
    ∧ ((statsHandler ⟨[], [⟨"global", 5, 3⟩]⟩ 9).2.body.lookup "data").bind
        (fun d => d.lookup "totalBloodUnits") = some (.int 5)
    ∧ (statsHandler ⟨[], [⟨"global", 5, 3⟩]⟩ 9).2.status = 200 :=
  ⟨rfl, rfl, rfl⟩

/-- C7 (amended): for every state of the aggregate, `GET /api/stats` answers
200 with `{success:true, data:{totalBloodUnits, lastUpdated}}`, a direct
passthrough of `Stats.getStats()`; the counter field in the response data is
named `totalBloodUnits`, and its value is the observable total. -/
theorem statsHandler_passthrough (db : DB) (now : Nat) :
    (statsHandler db now).2.status = 200
    ∧ (statsHandler db now).2.body.lookup "success" = some (.bool true)
    ∧ (statsHandler db now).2.body.lookup "data"
        = some (.obj [("totalBloodUnits", .int (getStats db now).2.totalBloodUnits),
                      ("lastUpdated", .int (getStats db now).2.lastUpdated)])
    ∧ ((statsHandler db now).2.body.lookup "data").bind
        (fun d => d.lookup "totalBloodUnits") = some (.int (totalUnits (getStats db now).1))
    ∧ (statsHandler db now).1 = (getStats db now).1 := by
  refine ⟨rfl, rfl, rfl, ?_, rfl⟩
  unfold statsHandler getStats
  cases h : findGlobal db with
  | none =>
      have hfind := find?_global_append_none db.stats
        ({ identifier := "global", totalBloodUnits := 0, lastUpdated := now }) h rfl
      simp [totalUnits, findGlobal, hfind, JVal.lookup]
  | some s =>
      unfold findGlobal at h
      simp [totalUnits, findGlobal, h, JVal.lookup]

/-! ## C8: the donors listing -/

theorem donatedDesc_trans : ∀ a b c : Donor,
    donatedDesc a b = true → donatedDesc b c = true → donatedDesc a c = true := by
  intro a b c h1 h2
  simp [donatedDesc] at h1 h2 ⊢
  omega

theorem donatedDesc_total : ∀ a b : Donor,
    (donatedDesc a b || donatedDesc b a) = true := by
  intro a b
  simp [donatedDesc]
  omega

/-- C8 counterexample: with one stored donor and the requested limit 0, the
response carries that one donor — more than the requested bound of 0 —
because `parseInt(req.query.limit) || 10` treats the falsy 0 as absent and
uses 10. -/
theorem donors_limit_zero_cex :
    (donorsHandler ⟨[⟨"A", "O+", 20, "FY", 1⟩], []⟩ (some 0)).status = 200
    ∧ (donorsHandler ⟨[⟨"A", "O+", 20, "FY", 1⟩], []⟩ (some 0)).body.lookup "data"
        = some (.arr [donorPublicJson ⟨"A", "O+", 20, "FY", 1⟩]) := by
  constructor
  · rfl
  · simp only [donorsHandler, List.mergeSort_singleton]
    rfl

/-- C8 (amended): `GET /api/donors` answers 200 with the donors sorted by
`donatedAt` descending (a stable sort, so ties keep insertion order),
truncated to the effective limit — 10 when the parameter is omitted,
non-numeric, or 0 — and each returned record exposes exactly the public
fields `fullName`, `bloodGroup`, `donatedAt`, never `age` or `year`. -/
theorem donors_listing (db : DB) (p : Option Int) :
    (donorsHandler db p).status = 200
    ∧ (donorsHandler db p).body.lookup "success" = some (.bool true)
    ∧ (donorsHandler db p).body.lookup "data"
        = some (.arr (((db.donors.mergeSort donatedDesc).take (effectiveLimit p)).map donorPublicJson))
    ∧ ((db.donors.mergeSort donatedDesc).take (effectiveLimit p)).length ≤ effectiveLimit p
    ∧ List.Pairwise (fun a b => b.donatedAt ≤ a.donatedAt)
        ((db.donors.mergeSort donatedDesc).take (effectiveLimit p))
    ∧ (db.donors.mergeSort donatedDesc).Perm db.donors
    ∧ (∀ a b, [a, b].Sublist db.donors → a.donatedAt = b.donatedAt
        → [a, b].Sublist (db.donors.mergeSort donatedDesc))
    ∧ effectiveLimit none = 10
    ∧ (∀ j ∈ ((db.donors.mergeSort donatedDesc).take (effectiveLimit p)).map donorPublicJson,
        j.keys = ["fullName", "bloodGroup", "donatedAt"]
        ∧ j.lookup "age" = none ∧ j.lookup "year" = none) := by
  refine ⟨rfl, rfl, rfl, ?_, ?_, ?_, ?_, rfl, ?_⟩
  · rw [List.length_take]
    exact min_le_left _ _
  · have hs := List.sorted_mergeSort donatedDesc_trans donatedDesc_total db.donors
    have hsub := List.take_sublist (effectiveLimit p) (db.donors.mergeSort donatedDesc)
    have hp := List.Pairwise.sublist hsub hs
    refine hp.imp ?_
    intro a b h
    simpa [donatedDesc] using h
  · exact List.mergeSort_perm db.donors donatedDesc
  · intro a b hsub heq
    exact List.mergeSort_stable_pair donatedDesc_trans donatedDesc_total
      (by simp [donatedDesc, heq]) hsub
  · intro j hj
    obtain ⟨d, hd, rfl⟩ := List.mem_map.mp hj
    exact ⟨rfl, rfl, rfl⟩

end BloodDonation
